import Mathlib

/-!
Verification development for the OTEL telemetry integration of
drone-runner-aws: a shallow embedding of the severity mapper, the logrus
log hook (Fire / UpdateContext / Close), the metrics bridge, and the
process-wide manager lifecycle (Start / Shutdown), with theorems settling
the specification claims about them.
-/

namespace DroneOtel

/-! ## Logrus levels

Numeric values of the Go logrus.Level enumeration (a uint32):
PanicLevel = 0 is the most severe, TraceLevel = 6 the least. -/

def PanicLevel : Nat := 0

def FatalLevel : Nat := 1

def ErrorLevel : Nat := 2

def WarnLevel : Nat := 3

def InfoLevel : Nat := 4

def DebugLevel : Nat := 5

def TraceLevel : Nat := 6

/-! ## OTEL log severities

Numeric values of go.opentelemetry.io/otel/log.Severity. -/

def SeverityTrace : Nat := 1

def SeverityDebug : Nat := 5

def SeverityInfo : Nat := 9

def SeverityWarn : Nat := 13

def SeverityError : Nat := 17

def SeverityFatal : Nat := 21

def SeverityFatal4 : Nat := 24

/-- Function `mapLogrusLevel` from logger_hook.go: converts a logrus log level to an
OTEL severity via a switch over the seven defined levels, with a default of
`SeverityInfo` for any other value. -/
def mapLogrusLevel (level : Nat) : Nat :=
  if level = TraceLevel then SeverityTrace
  else if level = DebugLevel then SeverityDebug
  else if level = InfoLevel then SeverityInfo
  else if level = WarnLevel then SeverityWarn
  else if level = ErrorLevel then SeverityError
  else if level = FatalLevel then SeverityFatal
  else if level = PanicLevel then SeverityFatal4
  else SeverityInfo

/-- logrus `Level.String()`: the textual name of a level, `"unknown"` for a
value outside the enumeration. -/
def levelString (level : Nat) : String :=
  if level = TraceLevel then "trace"
  else if level = DebugLevel then "debug"
  else if level = InfoLevel then "info"
  else if level = WarnLevel then "warning"
  else if level = ErrorLevel then "error"
  else if level = FatalLevel then "fatal"
  else if level = PanicLevel then "panic"
  else "unknown"

/-! ## Association-list model of Go string maps

Go maps are modelled as association lists; `alistUpsert` is the semantics
of `m[k] = v`, `alistLookup` of `v, ok := m[k]`. -/

def alistLookup {α : Type} : List (String × α) → String → Option α
  | [], _ => none
  | (k1, v1) :: rest, k => if k1 = k then some v1 else alistLookup rest k

def alistUpsert {α : Type} : List (String × α) → String → α → List (String × α)
  | [], k, v => [(k, v)]
  | (k1, v1) :: rest, k, v =>
      if k1 = k then (k, v) :: rest else (k1, v1) :: alistUpsert rest k v

/-! ## Log entries and records -/

/-- A dynamically-typed logrus field value, together with its `%v`
rendering (`fmt.Sprintf`); an `errVal` is a value implementing `error`,
whose rendering and `Error()` text is `msg`. -/
inductive FieldValue where
  | str (s : String)
  | errVal (msg : String)
  | other (text : String)
deriving DecidableEq, Repr

/-- Rendering `fmt.Sprintf("%v", v)` of a logrus field value. -/
def formatValue : FieldValue → String
  | .str s => s
  | .errVal msg => msg
  | .other text => text

/-- logrus.ErrorKey, the reserved field key for error values. -/
def errorKey : String := "error"

/-- Caller information attached to a logrus entry (`entry.Caller`). -/
structure Caller where
  file : String
  function : String
  line : Int
deriving DecidableEq, Repr

/-- A logrus entry: timestamp, level, message, structured field map,
optional caller info (present exactly when `entry.HasCaller()`), and an
optional per-entry context (contexts are modelled by numeric identifiers). -/
structure Entry where
  time : Nat
  level : Nat
  message : String
  data : List (String × FieldValue)
  caller : Option Caller
  context : Option Nat
deriving DecidableEq, Repr

/-- The identifier of `context.Background()`. -/
def backgroundContext : Nat := 0

/-- An OTEL attribute value (`otellog.Value`): string or int. -/
inductive AttrValue where
  | str (s : String)
  | int (n : Int)
deriving DecidableEq, Repr

/-- An OTEL key/value attribute (`otellog.KeyValue`). -/
structure Attr where
  key : String
  value : AttrValue
deriving DecidableEq, Repr

/-- Constructor `otellog.String k v`. -/
def strAttr (k v : String) : Attr := ⟨k, .str v⟩

/-- Constructor `otellog.Int k n`. -/
def intAttr (k : String) (n : Int) : Attr := ⟨k, .int n⟩

/-- An OTEL log record (`otellog.Record`) as Fire assembles it. -/
structure Record where
  timestamp : Nat
  body : String
  severity : Nat
  severityText : String
  attributes : List Attr
deriving DecidableEq, Repr

/-! ## The log hook -/

/-- The derived OTEL logger held by a hook. Whether the underlying
exporter or batch processor will actually manage to export a record is an
environment fact carried in `exportFails`; `Emit` returns nothing either
way. -/
structure OtelLogger where
  exportFails : Bool
deriving DecidableEq, Repr

/-- Structure `OTELLogHook` from logger_hook.go: the derived logger (`none` models a
nil/uninitialized logger), the label map guarded by the hook's read-write
lock, and the outcome the underlying `loggerProvider.Shutdown` will report
on `Close` (an environment fact carried by the hook). -/
structure OTELLogHook where
  otelLogger : Option OtelLogger
  context : List (String × String)
  closeErr : Option String
deriving DecidableEq, Repr

/-- The panic value raised by Go on calling a method through a nil
interface. -/
def nilLoggerPanicMsg : String :=
  "runtime error: invalid memory address or nil pointer dereference"

/-- The attribute list Fire assembles, translated operationally from the
four appending phases of the source: entry fields, label-map snapshot,
caller info, extracted error message. -/
def buildAttrs (h : OTELLogHook) (entry : Entry) : List Attr :=
  let attrs : List Attr := []
  let attrs := entry.data.foldl
    (fun acc kv => acc ++ [strAttr kv.1 (formatValue kv.2)]) attrs
  let attrs := h.context.foldl
    (fun acc kv => acc ++ [strAttr kv.1 kv.2]) attrs
  let attrs :=
    match entry.caller with
    | some c => attrs ++ [strAttr "code.filepath" c.file,
        strAttr "code.function" c.function, intAttr "code.lineno" c.line]
    | none => attrs
  match alistLookup entry.data errorKey with
  | some (.errVal msg) => attrs ++ [strAttr "exception.message" msg]
  | _ => attrs

/-- An `Emit` call observed by the derived logger: the resolved context
and the finished record. -/
structure EmitCall where
  ctx : Nat
  record : Record
deriving DecidableEq, Repr

/-- The possible outcomes of calling a Go function that returns an error:
a normal return (with the emit performed, if any), or a propagated panic. -/
inductive FireOutcome where
  | ret (err : Option String) (emitted : Option EmitCall)
  | panicked (v : String)
deriving DecidableEq, Repr

/-- The body of `Fire` without the deferred recover: resolves the context,
builds the record, and emits it; calling `Emit` through a nil logger raises
a runtime panic, represented by `.error`. -/
def fireBody (h : OTELLogHook) (entry : Entry) : Except String EmitCall :=
  let ctx :=
    match entry.context with
    | none => backgroundContext
    | some c => c
  let record : Record :=
    { timestamp := entry.time
      body := entry.message
      severity := mapLogrusLevel entry.level
      severityText := levelString entry.level
      attributes := buildAttrs h entry }
  match h.otelLogger with
  | none => .error nilLoggerPanicMsg
  | some _ => .ok ⟨ctx, record⟩

/-- Method `Fire` from logger_hook.go: runs the body under a deferred recover
that converts any panic into a returned error with the fixed
`"otel log hook panic: "` prefix. -/
def OTELLogHook.Fire (h : OTELLogHook) (entry : Entry) : FireOutcome :=
  match fireBody h entry with
  | .ok call => .ret none (some call)
  | .error p => .ret (some ("otel log hook panic: " ++ p)) none

/-- A list of `n` successive Fire calls on the same hook and entry. -/
def fireRepeat (h : OTELLogHook) (entry : Entry) (n : Nat) : List FireOutcome :=
  (List.range n).map (fun _ => h.Fire entry)

/-- Method `UpdateContext` from logger_hook.go: merge-upserts the argument pairs
into the label map under the write lock. -/
def OTELLogHook.UpdateContext (h : OTELLogHook)
    (ctxMap : List (String × String)) : OTELLogHook :=
  { h with context := ctxMap.foldl (fun acc kv => alistUpsert acc kv.1 kv.2) h.context }

/-- Method `Close` from logger_hook.go: shuts down the logger provider and
returns whatever error the provider reports. -/
def OTELLogHook.Close (h : OTELLogHook) : Option String := h.closeErr

/-! ## The metrics bridge -/

/-- Structure `MetricsBridge` from metrics_exporter.go: a thin holder of a meter
provider; `shutdownErr` is the outcome the provider will report when shut
down (an environment fact carried by the bridge). -/
structure MetricsBridge where
  shutdownErr : Option String
deriving DecidableEq, Repr

/-- Method `MetricsBridge.Shutdown`: delegates to the provider's shutdown. -/
def MetricsBridge.Shutdown (b : MetricsBridge) : Option String := b.shutdownErr

/-! ## Configuration -/

/-- Structure `Config` from config.go. -/
structure Config where
  Enabled : Bool
  Endpoint : String
  Protocol : String
  Insecure : Bool
  ExportLogs : Bool
  ExportMetrics : Bool
  ServiceName : String
  ServiceVersion : String
  Environment : String
  Headers : List (String × String)
deriving DecidableEq, Repr

/-! ## The manager -/

/-- Structure `manager` from init.go: the components owned by one lifecycle
generation. Auxiliary shutdown functions are modelled by the error each
one will return when invoked. -/
structure Manager where
  logHook : Option OTELLogHook
  metricsBridge : Option MetricsBridge
  shutdownFuncs : List (Option String)
  config : Config
deriving DecidableEq, Repr

/-- An observable teardown step performed by `manager.shutdown`. -/
inductive TeardownEvent where
  | closeLogHook
  | shutdownMetricsBridge
  | auxFn (i : Nat)
deriving DecidableEq, Repr

/-- Formatting `fmt.Errorf("OTEL shutdown errors: %v", errs)`: joins the collected
sub-errors into the single aggregate error text. -/
def joinErrs (errs : List String) : String :=
  "OTEL shutdown errors: [" ++ String.intercalate " " errs ++ "]"

/-- The loop over `m.shutdownFuncs` in `manager.shutdown`: each function
is invoked in registration order and a failing one appends a wrapped error
to the accumulator without stopping the loop. -/
def runAuxFns (trace : List TeardownEvent) (errs : List String) (i : Nat) :
    List (Option String) → List TeardownEvent × List String
  | [] => (trace, errs)
  | fn :: rest =>
    match fn with
    | none => runAuxFns (trace ++ [.auxFn i]) errs (i + 1) rest
    | some e => runAuxFns (trace ++ [.auxFn i])
        (errs ++ ["exporter shutdown: " ++ e]) (i + 1) rest

/-- Method `manager.shutdown` from init.go: close the log hook if present, then
shut down the metrics bridge if present, then run every auxiliary shutdown
function in order; each failure is wrapped and collected, and the
collected failures are joined into one error (none when empty). Also
returns the trace of steps performed. -/
def Manager.shutdown (m : Manager) : List TeardownEvent × Option String :=
  let (trace1, errs1) :=
    match m.logHook with
    | none => (([] : List TeardownEvent), ([] : List String))
    | some h =>
      match h.Close with
      | none => ([.closeLogHook], [])
      | some e => ([.closeLogHook], ["log hook shutdown: " ++ e])
  let (trace2, errs2) :=
    match m.metricsBridge with
    | none => (trace1, errs1)
    | some b =>
      match b.Shutdown with
      | none => (trace1 ++ [.shutdownMetricsBridge], errs1)
      | some e => (trace1 ++ [.shutdownMetricsBridge],
          errs1 ++ ["metrics bridge shutdown: " ++ e])
  let (trace3, errs3) := runAuxFns trace2 errs2 0 m.shutdownFuncs
  (trace3, if errs3.isEmpty then none else some (joinErrs errs3))

/-- Function `Shutdown` from init.go, acting on the mutex-guarded singleton slot:
with no active manager it is a no-op success; otherwise it tears the
active manager down and clears the slot regardless of the outcome. -/
def Shutdown (st : Option Manager) : Option Manager × Option String :=
  match st with
  | none => (none, none)
  | some m => (none, (m.shutdown).2)

/-! ## Start -/

/-- The environment a Start call runs in: whether resource construction,
OTLP log-exporter construction and OTLP metric-reader construction fail,
and the behavior of the components that get built from them. -/
structure StartEnv where
  resourceFails : Bool
  logExporterFails : Bool
  metricReaderFails : Bool
  newHookExportFails : Bool
  newHookCloseErr : Option String
  newBridgeShutdownErr : Option String
deriving DecidableEq, Repr

/-- An observable action of one `Start` call. -/
inductive StartEvent where
  | prevTeardown (ev : TeardownEvent)
  | prevShutdownErrLogged (msg : String)
  | resourceFailLogged
  | logExporterFailLogged
  | logHookInstalled
  | metricReaderFailLogged
  | metricsBridgeInstalled
  | managerInstalled
deriving DecidableEq, Repr

/-- The Start error message for an enabled config with no endpoint. -/
def noEndpointErr : String := "OTEL is enabled but DRONE_OTEL_ENDPOINT is not set"

/-- The log hook `newOTELLogHookFromExporter` builds for a Start call:
a present (non-nil) derived logger and an empty label map; the
provider-shutdown outcome comes from the environment. -/
def newHookOf (env : StartEnv) : OTELLogHook :=
  { otelLogger := some ⟨env.newHookExportFails⟩
    context := []
    closeErr := env.newHookCloseErr }

/-- Function `Start` from init.go, acting on the singleton slot: disabled configs
are a no-op success; an enabled config without endpoint is a configuration
error; otherwise any previous manager is shut down first (its error only
logged), the resource is built (a failure only logged, degrading to the
default resource), the log hook and metrics bridge are independently built
when their export flags are set (a construction failure only logged,
leaving that sub-feature absent), and the new manager is installed. -/
def Start (st : Option Manager) (config : Config) (env : StartEnv) :
    Option Manager × Option String × List StartEvent :=
  if !config.Enabled then (st, none, [])
  else if config.Endpoint = "" then (st, some noEndpointErr, [])
  else
    let prevEvents :=
      match st with
      | none => []
      | some prev =>
        (prev.shutdown).1.map StartEvent.prevTeardown ++
          (match (prev.shutdown).2 with
           | none => []
           | some e => [StartEvent.prevShutdownErrLogged e])
    let resEvents := if env.resourceFails then [StartEvent.resourceFailLogged] else []
    let mgr0 : Manager :=
      { logHook := none, metricsBridge := none, shutdownFuncs := [], config := config }
    let logEvents : List StartEvent :=
      if config.ExportLogs then
        if env.logExporterFails then [StartEvent.logExporterFailLogged]
        else [StartEvent.logHookInstalled]
      else []
    let mgr1 :=
      if config.ExportLogs && !env.logExporterFails then
        { mgr0 with logHook := some (newHookOf env) }
      else mgr0
    let metricEvents : List StartEvent :=
      if config.ExportMetrics then
        if env.metricReaderFails then [StartEvent.metricReaderFailLogged]
        else [StartEvent.metricsBridgeInstalled]
      else []
    let mgr2 :=
      if config.ExportMetrics && !env.metricReaderFails then
        { mgr1 with metricsBridge := some (⟨env.newBridgeShutdownErr⟩ : MetricsBridge) }
      else mgr1
    (some mgr2, none,
      prevEvents ++ resEvents ++ logEvents ++ metricEvents ++ [StartEvent.managerInstalled])

/-- A StartEnv where every construction succeeds. -/
def cleanEnv : StartEnv :=
  { resourceFails := false, logExporterFails := false, metricReaderFails := false,
    newHookExportFails := false, newHookCloseErr := none, newBridgeShutdownErr := none }

/-! ## Concrete sample values used to evaluate the definitions -/

/-- A hook whose underlying logger was never initialized (nil logger). -/
def nilLoggerHook : OTELLogHook :=
  { otelLogger := none, context := [], closeErr := none }

/-- A correctly initialized hook with one label. -/
def liveHook : OTELLogHook :=
  { otelLogger := some ⟨false⟩, context := [("accountId", "a1")], closeErr := none }

/-- A plain info-level entry with no fields, caller or context. -/
def plainEntry : Entry :=
  { time := 5, level := InfoLevel, message := "hello", data := [],
    caller := none, context := none }

/-- An error-level entry with structured fields (including an error value
under the reserved key), caller info and a per-entry context. -/
def richEntry : Entry :=
  { time := 7, level := ErrorLevel, message := "boom",
    data := [("k1", .str "v1"), ("error", .errVal "disk full")],
    caller := some ⟨"f.go", "main.run", 42⟩, context := some 3 }

/-- A sample configuration snapshot for sample managers. -/
def sampleConfig : Config :=
  { Enabled := true, Endpoint := "localhost:4317", Protocol := "grpc",
    Insecure := true, ExportLogs := true, ExportMetrics := true,
    ServiceName := "drone-runner-aws", ServiceVersion := "1.0.0",
    Environment := "production", Headers := [] }

/-- A manager whose log hook close fails, whose bridge shutdown fails, and
with two auxiliary shutdown functions, the first of which fails. -/
def failingManager : Manager :=
  { logHook := some { otelLogger := some ⟨false⟩, context := [], closeErr := some "flush timeout" }
    metricsBridge := some ⟨some "reader stopped"⟩
    shutdownFuncs := [some "conn reset", none]
    config := sampleConfig }

/-- A manager whose components all shut down cleanly. -/
def cleanManager : Manager :=
  { logHook := some { otelLogger := some ⟨false⟩, context := [], closeErr := none }
    metricsBridge := some ⟨none⟩
    shutdownFuncs := [none]
    config := sampleConfig }

/-- A disabled configuration with otherwise populated fields. -/
def disabledConfig : Config :=
  { sampleConfig with Enabled := false }

/-- An enabled configuration with an empty endpoint. -/
def noEndpointConfig : Config :=
  { sampleConfig with Endpoint := "" }

/-- A Start environment where the log-exporter build fails and the other
constructions succeed. -/
def logFailEnv : StartEnv :=
  { resourceFails := true, logExporterFails := true, metricReaderFails := false,
    newHookExportFails := false, newHookCloseErr := none, newBridgeShutdownErr := none }

/-! ## Helper lemmas -/

theorem foldl_append_singleton {α β : Type} (f : α → β) (l : List α) (init : List β) :
    l.foldl (fun acc x => acc ++ [f x]) init = init ++ l.map f := by
  induction l generalizing init with
  | nil => simp
  | cons x xs ih => simp [ih]

theorem buildAttrs_concat (h : OTELLogHook) (entry : Entry) :
    buildAttrs h entry =
      entry.data.map (fun kv => strAttr kv.1 (formatValue kv.2)) ++
      h.context.map (fun kv => strAttr kv.1 kv.2) ++
      (match entry.caller with
       | some c => [strAttr "code.filepath" c.file, strAttr "code.function" c.function,
           intAttr "code.lineno" c.line]
       | none => []) ++
      (match alistLookup entry.data errorKey with
       | some (.errVal msg) => [strAttr "exception.message" msg]
       | _ => []) := by
  simp only [buildAttrs, foldl_append_singleton, List.nil_append]
  cases hc : entry.caller <;> cases he : alistLookup entry.data errorKey <;>
    try (rename_i v; cases v)
  all_goals simp [List.append_assoc]

/-! ## C9: the severity mapper -/

/-- C9: the Severity Mapper is total: on the seven defined logrus levels it
is strictly antitone in the numeric level (hence increasing with level
severity) and injective, maps panic to the highest fatal-class severity
(`Fatal4`), distinct from plain fatal, and maps every value outside the
enumeration to the info severity. -/
theorem mapLogrusLevel_total_ordered :
    (∀ l1, l1 ≤ TraceLevel → ∀ l2, l2 ≤ TraceLevel → l1 < l2 →
        mapLogrusLevel l2 < mapLogrusLevel l1) ∧
    (∀ l1, l1 ≤ TraceLevel → ∀ l2, l2 ≤ TraceLevel →
        mapLogrusLevel l1 = mapLogrusLevel l2 → l1 = l2) ∧
    mapLogrusLevel PanicLevel = SeverityFatal4 ∧
    mapLogrusLevel FatalLevel = SeverityFatal ∧
    SeverityFatal4 ≠ SeverityFatal ∧
    (∀ l, TraceLevel < l → mapLogrusLevel l = SeverityInfo) := by
  refine ⟨by decide, by decide, by decide, by decide, by decide, ?_⟩
  intro l hl
  simp only [TraceLevel] at hl
  simp only [mapLogrusLevel, TraceLevel, DebugLevel, InfoLevel, WarnLevel, ErrorLevel,
    FatalLevel, PanicLevel]
  rw [if_neg (by omega), if_neg (by omega), if_neg (by omega), if_neg (by omega),
    if_neg (by omega), if_neg (by omega), if_neg (by omega)]

/-- Witness for C9 at concrete levels: debug maps strictly below trace on
the OTEL scale reversed (level 6 maps below level 5), equal severities at
warn force equal levels, and the sentinel value 100 maps to info. -/
theorem mapLogrusLevel_total_ordered_witness :
    mapLogrusLevel TraceLevel < mapLogrusLevel DebugLevel ∧
    WarnLevel = WarnLevel ∧
    mapLogrusLevel 100 = SeverityInfo := by
  refine ⟨?_, ?_, ?_⟩
  · exact mapLogrusLevel_total_ordered.1 DebugLevel (by decide) TraceLevel (by decide) (by decide)
  · exact mapLogrusLevel_total_ordered.2.1 WarnLevel (by decide) WarnLevel (by decide) rfl
  · exact mapLogrusLevel_total_ordered.2.2.2.2.2 100 (by decide)

/-! ## C1: Fire contains runtime faults -/

/-- C1: Fire never propagates a runtime fault to the caller: every call
returns normally; when the fault occurs (nil underlying logger) the
returned error is non-nil and carries the fixed marker prefix
"otel log hook panic"; repeated calls in the faulted state each
independently return such an error; and on the fault-free path the fault
path is not taken (no error is returned). -/
theorem Fire_contains_faults :
    (∀ (h : OTELLogHook) (entry : Entry), ∃ err em, h.Fire entry = .ret err em) ∧
    (∀ (h : OTELLogHook) (entry : Entry), h.otelLogger = none →
        ∃ s, h.Fire entry = .ret (some s) none ∧
          ∃ rest, s = "otel log hook panic" ++ rest) ∧
    (∀ (h : OTELLogHook) (entry : Entry) (n : Nat), h.otelLogger = none →
        ∀ o ∈ fireRepeat h entry n, ∃ s, o = .ret (some s) none ∧
          ∃ rest, s = "otel log hook panic" ++ rest) ∧
    (∀ (h : OTELLogHook) (entry : Entry), h.otelLogger ≠ none →
        ∃ em, h.Fire entry = .ret none em) := by
  have hfault : ∀ (h : OTELLogHook) (entry : Entry), h.otelLogger = none →
      ∃ s, h.Fire entry = .ret (some s) none ∧
        ∃ rest, s = "otel log hook panic" ++ rest := by
    intro h entry hl
    refine ⟨"otel log hook panic: " ++ nilLoggerPanicMsg, ?_, ": " ++ nilLoggerPanicMsg, ?_⟩
    · simp [OTELLogHook.Fire, fireBody, hl]
    · rw [← String.append_assoc]
      rfl
  refine ⟨?_, hfault, ?_, ?_⟩
  · intro h entry
    unfold OTELLogHook.Fire
    cases fireBody h entry with
    | ok call => exact ⟨none, some call, rfl⟩
    | error p => exact ⟨some ("otel log hook panic: " ++ p), none, rfl⟩
  · intro h entry n hl o ho
    have : o = h.Fire entry := by
      simp only [fireRepeat, List.mem_map] at ho
      obtain ⟨_, _, rfl⟩ := ho
      rfl
    obtain ⟨s, hs, rest, hr⟩ := hfault h entry hl
    exact ⟨s, this ▸ hs, rest, hr⟩
  · intro h entry hl
    match hf : h.otelLogger with
    | none => exact absurd hf hl
    | some lg => exact ⟨some ⟨(match entry.context with
        | none => backgroundContext
        | some c => c),
        ⟨entry.time, entry.message, mapLogrusLevel entry.level,
          levelString entry.level, buildAttrs h entry⟩⟩,
        by simp [OTELLogHook.Fire, fireBody, hf]⟩

/-- Witness for C1: on a hook with a nil logger, Fire (and the 42nd of 100
successive Fire calls) returns a marker-prefixed error; on a live hook it
returns no error. -/
theorem Fire_contains_faults_witness :
    (∃ s, nilLoggerHook.Fire plainEntry = .ret (some s) none ∧
      ∃ rest, s = "otel log hook panic" ++ rest) ∧
    (∃ s, (fireRepeat nilLoggerHook plainEntry 100).get ⟨41, by simp [fireRepeat]⟩ =
        .ret (some s) none ∧ ∃ rest, s = "otel log hook panic" ++ rest) ∧
    (∃ em, liveHook.Fire plainEntry = .ret none em) := by
  refine ⟨Fire_contains_faults.2.1 nilLoggerHook plainEntry rfl, ?_, ?_⟩
  · exact Fire_contains_faults.2.2.1 nilLoggerHook plainEntry 100 rfl _
      (List.get_mem (fireRepeat nilLoggerHook plainEntry 100) _ _)
  · exact Fire_contains_faults.2.2.2 liveHook plainEntry (by decide)

/-! ## C10: on the non-faulting path Fire reports no error -/

/-- C10: with an initialized logger Fire always returns a nil error after
emitting; a non-nil error can only arise from the fault path (nil logger);
and whether the underlying exporter or batch processor would actually
export the record is invisible in the outcome of Fire. -/
theorem Fire_error_only_from_fault :
    (∀ (h : OTELLogHook) (entry : Entry), h.otelLogger ≠ none →
        ∃ call, h.Fire entry = .ret none (some call)) ∧
    (∀ (h : OTELLogHook) (entry : Entry) (s : String) (em : Option EmitCall),
        h.Fire entry = .ret (some s) em → h.otelLogger = none) ∧
    (∀ (lbls : List (String × String)) (ce : Option String) (entry : Entry) (b1 b2 : Bool),
        OTELLogHook.Fire ⟨some ⟨b1⟩, lbls, ce⟩ entry =
          OTELLogHook.Fire ⟨some ⟨b2⟩, lbls, ce⟩ entry) := by
  refine ⟨?_, ?_, ?_⟩
  · intro h entry hl
    match hf : h.otelLogger with
    | none => exact absurd hf hl
    | some lg => exact ⟨⟨(match entry.context with
        | none => backgroundContext
        | some c => c),
        ⟨entry.time, entry.message, mapLogrusLevel entry.level,
          levelString entry.level, buildAttrs h entry⟩⟩,
        by simp [OTELLogHook.Fire, fireBody, hf]⟩
  · intro h entry s em hfire
    match hf : h.otelLogger with
    | none => rfl
    | some lg =>
      rw [show h.Fire entry = .ret none (some ⟨(match entry.context with
          | none => backgroundContext
          | some c => c),
          ⟨entry.time, entry.message, mapLogrusLevel entry.level,
            levelString entry.level, buildAttrs h entry⟩⟩)
        from by simp [OTELLogHook.Fire, fireBody, hf]] at hfire
      exact absurd (FireOutcome.ret.injEq _ _ _ _ ▸ hfire).1 (by simp)
  · intro lbls ce entry b1 b2
    simp [OTELLogHook.Fire, fireBody, buildAttrs]

/-- Witness for C10: a live hook returns no error on Fire, and the faulted
hook outcome implies the logger is nil. -/
theorem Fire_error_only_from_fault_witness :
    (∃ call, liveHook.Fire plainEntry = .ret none (some call)) ∧
    nilLoggerHook.otelLogger = none := by
  refine ⟨Fire_error_only_from_fault.1 liveHook plainEntry (by decide), ?_⟩
  exact Fire_error_only_from_fault.2.1 nilLoggerHook plainEntry
    ("otel log hook panic: " ++ nilLoggerPanicMsg) none
    (by simp [OTELLogHook.Fire, fireBody, nilLoggerHook])

/-! ## C7: record construction on the non-faulting path -/

/-- C7: on the non-faulting path Fire emits, with the entry's context
resolved to the background context when absent, one record whose timestamp
is the entry time, whose body is the message, whose severity and severity
text derive from the entry's level, and whose attribute list is exactly:
the structured fields coerced to text, then the label-map snapshot, then
caller file/function/line when caller info is present, then exactly one
exception-message attribute from the error's text when the field under the
reserved error key holds an error value. -/
theorem Fire_record_construction (h : OTELLogHook) (entry : Entry) (lg : OtelLogger)
    (hl : h.otelLogger = some lg) :
    h.Fire entry = .ret none (some
      ⟨(match entry.context with | none => backgroundContext | some c => c),
       ⟨entry.time, entry.message, mapLogrusLevel entry.level, levelString entry.level,
        entry.data.map (fun kv => strAttr kv.1 (formatValue kv.2)) ++
        h.context.map (fun kv => strAttr kv.1 kv.2) ++
        (match entry.caller with
         | some c => [strAttr "code.filepath" c.file, strAttr "code.function" c.function,
             intAttr "code.lineno" c.line]
         | none => []) ++
        (match alistLookup entry.data errorKey with
         | some (.errVal msg) => [strAttr "exception.message" msg]
         | _ => [])⟩⟩) := by
  simp [OTELLogHook.Fire, fireBody, hl, buildAttrs_concat]

/-- Witness for C7: a concrete entry carrying two fields (one an error
value under the reserved key), caller info and a context, fired on a live
hook with one label, emits exactly the expected record. -/
theorem Fire_record_construction_witness :
    liveHook.Fire richEntry = .ret none (some
      ⟨3, ⟨7, "boom", SeverityError, "error",
        [strAttr "k1" "v1", strAttr "error" "disk full",
         strAttr "accountId" "a1",
         strAttr "code.filepath" "f.go", strAttr "code.function" "main.run",
         intAttr "code.lineno" 42,
         strAttr "exception.message" "disk full"]⟩⟩) := by
  have := Fire_record_construction liveHook richEntry ⟨false⟩ rfl
  simpa [liveHook, richEntry, alistLookup, errorKey, formatValue, ErrorLevel,
    mapLogrusLevel, levelString, SeverityError] using this

/-! ## C8: UpdateContext merge-upserts the label map -/

theorem alistLookup_upsert_self {α : Type} (l : List (String × α)) (k : String) (v : α) :
    alistLookup (alistUpsert l k v) k = some v := by
  induction l with
  | nil => simp [alistUpsert, alistLookup]
  | cons p rest ih =>
    by_cases hk : p.1 = k
    · simp [alistUpsert, hk, alistLookup]
    · simp [alistUpsert, hk, alistLookup, ih]

theorem alistLookup_upsert_ne {α : Type} (l : List (String × α)) (k k2 : String) (v : α)
    (hne : k2 ≠ k) : alistLookup (alistUpsert l k v) k2 = alistLookup l k2 := by
  induction l with
  | nil => simp [alistUpsert, alistLookup, Ne.symm hne]
  | cons p rest ih =>
    by_cases hk : p.1 = k
    · subst hk
      simp [alistUpsert, alistLookup, Ne.symm hne]
    · by_cases hk2 : p.1 = k2
      · subst hk2
        simp [alistUpsert, alistLookup, hk]
      · simp [alistUpsert, alistLookup, hk, hk2, ih]

theorem alistLookup_none_iff {α : Type} (l : List (String × α)) (k : String) :
    alistLookup l k = none ↔ k ∉ l.map Prod.fst := by
  induction l with
  | nil => simp [alistLookup]
  | cons p rest ih =>
    by_cases hk : p.1 = k <;> simp [alistLookup, hk, ih, Ne.symm, eq_comm]

theorem updateFold_lookup_absent {α : Type} (m : List (String × α)) (acc : List (String × α))
    (k : String) (hk : alistLookup m k = none) :
    alistLookup (m.foldl (fun acc kv => alistUpsert acc kv.1 kv.2) acc) k =
      alistLookup acc k := by
  induction m generalizing acc with
  | nil => rfl
  | cons p rest ih =>
    have hne : p.1 ≠ k := by
      intro hcontra
      simp [alistLookup, hcontra] at hk
    have hrest : alistLookup rest k = none := by
      simpa [alistLookup, hne] using hk
    simp only [List.foldl_cons]
    rw [ih _ hrest, alistLookup_upsert_ne _ _ _ _ (Ne.symm hne)]

theorem updateFold_lookup_present {α : Type} (m : List (String × α)) (acc : List (String × α))
    (k : String) (v : α) (hnd : (m.map Prod.fst).Nodup) (hk : alistLookup m k = some v) :
    alistLookup (m.foldl (fun acc kv => alistUpsert acc kv.1 kv.2) acc) k = some v := by
  induction m generalizing acc with
  | nil => simp [alistLookup] at hk
  | cons p rest ih =>
    simp only [List.map_cons, List.nodup_cons] at hnd
    by_cases hp : p.1 = k
    · have hv : p.2 = v := by
        simpa [alistLookup, hp] using hk
      have hrest : alistLookup rest k = none := by
        rw [alistLookup_none_iff]
        rw [← hp]
        exact hnd.1
      simp only [List.foldl_cons]
      rw [updateFold_lookup_absent _ _ _ hrest, hp, hv, alistLookup_upsert_self]
    · have hrest : alistLookup rest k = some v := by
        simpa [alistLookup, hp] using hk
      simp only [List.foldl_cons]
      exact ih _ hnd.2 hrest

theorem updateFold_isSome_mono {α : Type} (m : List (String × α)) (acc : List (String × α))
    (k : String) (hk : (alistLookup acc k).isSome = true) :
    (alistLookup (m.foldl (fun acc kv => alistUpsert acc kv.1 kv.2) acc) k).isSome = true := by
  induction m generalizing acc with
  | nil => exact hk
  | cons p rest ih =>
    simp only [List.foldl_cons]
    refine ih _ ?_
    by_cases hp : k = p.1
    · subst hp
      rw [alistLookup_upsert_self]
      rfl
    · rw [alistLookup_upsert_ne _ _ _ _ hp]
      exact hk

/-- C8: UpdateContext merge-upserts its argument into the label map: every
key of the argument (whose keys are distinct, as the keys of a Go map are)
ends with the argument's value, every other key keeps its prior value, no
key is ever removed, and across any sequence of UpdateContext calls the
key set grows monotonically. -/
theorem UpdateContext_merge_upsert :
    (∀ (h : OTELLogHook) (m : List (String × String)),
        (m.map Prod.fst).Nodup → ∀ k v, alistLookup m k = some v →
          alistLookup (h.UpdateContext m).context k = some v) ∧
    (∀ (h : OTELLogHook) (m : List (String × String)) (k : String),
        alistLookup m k = none →
          alistLookup (h.UpdateContext m).context k = alistLookup h.context k) ∧
    (∀ (h : OTELLogHook) (m : List (String × String)) (k : String),
        (alistLookup h.context k).isSome = true →
          (alistLookup (h.UpdateContext m).context k).isSome = true) ∧
    (∀ (h : OTELLogHook) (ms : List (List (String × String))) (k : String),
        (alistLookup h.context k).isSome = true →
          (alistLookup (ms.foldl OTELLogHook.UpdateContext h).context k).isSome = true) := by
  refine ⟨?_, ?_, ?_, ?_⟩
  · intro h m hnd k v hk
    exact updateFold_lookup_present m h.context k v hnd hk
  · intro h m k hk
    exact updateFold_lookup_absent m h.context k hk
  · intro h m k hk
    exact updateFold_isSome_mono m h.context k hk
  · intro h ms k hk
    induction ms generalizing h with
    | nil => exact hk
    | cons m rest ih =>
      simp only [List.foldl_cons]
      exact ih _ (updateFold_isSome_mono m h.context k hk)

/-- Witness for C8: updating a hook holding one label with a two-pair map
that overwrites the existing key: the overwritten key has the new value,
the fresh key is added, an untouched key keeps its value, and after a
second update the original key is still present. -/
theorem UpdateContext_merge_upsert_witness :
    alistLookup ((liveHook.UpdateContext
        [("accountId", "a2"), ("poolId", "p1")]).context) "accountId" = some "a2" ∧
    alistLookup ((liveHook.UpdateContext [("poolId", "p1")]).context) "accountId" =
      alistLookup liveHook.context "accountId" ∧
    (alistLookup ((liveHook.UpdateContext [("poolId", "p1")]).context) "accountId").isSome
      = true ∧
    (alistLookup (([[("poolId", "p1")], [("x", "y")]].foldl
        OTELLogHook.UpdateContext liveHook).context) "accountId").isSome = true := by
  refine ⟨?_, ?_, ?_, ?_⟩
  · exact UpdateContext_merge_upsert.1 liveHook [("accountId", "a2"), ("poolId", "p1")]
      (by decide) "accountId" "a2" rfl
  · exact UpdateContext_merge_upsert.2.1 liveHook [("poolId", "p1")] "accountId" rfl
  · exact UpdateContext_merge_upsert.2.2.1 liveHook [("poolId", "p1")] "accountId" rfl
  · exact UpdateContext_merge_upsert.2.2.2 liveHook [[("poolId", "p1")], [("x", "y")]]
      "accountId" rfl

/-! ## C2: ordered teardown in manager.shutdown -/

theorem runAuxFns_eq (trace : List TeardownEvent) (errs : List String) (i : Nat)
    (fns : List (Option String)) :
    runAuxFns trace errs i fns =
      (trace ++ (List.range fns.length).map (fun j => TeardownEvent.auxFn (i + j)),
       errs ++ fns.filterMap (Option.map (fun e => "exporter shutdown: " ++ e))) := by
  induction fns generalizing trace errs i with
  | nil => simp [runAuxFns]
  | cons fn rest ih =>
    have hshift : (List.range (rest.length + 1)).map (fun j => TeardownEvent.auxFn (i + j)) =
        TeardownEvent.auxFn i :: (List.range rest.length).map
          (fun j => TeardownEvent.auxFn (i + 1 + j)) := by
      rw [List.range_succ_eq_map]
      simp [List.map_map, Function.comp]
      intro a _
      omega
    cases fn with
    | none => simp [runAuxFns, ih, hshift]
    | some e => simp [runAuxFns, ih, hshift]

/-- C2: within one shutdown of an active manager, teardown is ordered —
log hook first when present, then metrics bridge when present, then every
auxiliary function in registration order — and the performed steps do not
depend on which steps fail (no step is skipped); the returned error is
none exactly when nothing failed, and otherwise joins all collected
failures in that same order. -/
theorem manager_shutdown_ordered (m : Manager) :
    (m.shutdown).1 =
      (match m.logHook with
       | none => []
       | some _ => [TeardownEvent.closeLogHook]) ++
      (match m.metricsBridge with
       | none => []
       | some _ => [TeardownEvent.shutdownMetricsBridge]) ++
      (List.range m.shutdownFuncs.length).map TeardownEvent.auxFn ∧
    (m.shutdown).2 =
      (if ((match m.logHook with
            | none => []
            | some h => (match h.Close with
              | none => []
              | some e => ["log hook shutdown: " ++ e])) ++
           (match m.metricsBridge with
            | none => []
            | some b => (match b.Shutdown with
              | none => []
              | some e => ["metrics bridge shutdown: " ++ e])) ++
           m.shutdownFuncs.filterMap
             (Option.map (fun e => "exporter shutdown: " ++ e))).isEmpty
       then none
       else some (joinErrs
         ((match m.logHook with
           | none => []
           | some h => (match h.Close with
             | none => []
             | some e => ["log hook shutdown: " ++ e])) ++
          (match m.metricsBridge with
           | none => []
           | some b => (match b.Shutdown with
             | none => []
             | some e => ["metrics bridge shutdown: " ++ e])) ++
          m.shutdownFuncs.filterMap
            (Option.map (fun e => "exporter shutdown: " ++ e))))) := by
  obtain ⟨hook, bridge, fns, config⟩ := m
  cases hook with
  | none =>
    cases bridge with
    | none =>
      simp [Manager.shutdown, runAuxFns_eq]
    | some b =>
      cases hb : b.Shutdown <;>
        simp [Manager.shutdown, hb, runAuxFns_eq]
  | some hk =>
    cases hhk : hk.Close <;> cases bridge with
    | none => simp [Manager.shutdown, hhk, runAuxFns_eq]
    | some b =>
      cases hb : b.Shutdown <;>
        simp [Manager.shutdown, hhk, hb, runAuxFns_eq, List.append_assoc]

/-! ## C3: Shutdown idempotence at the manager level -/

/-- C3: Shutdown with no active manager is a no-op success; Shutdown on an
active manager always clears the singleton slot, whatever teardown
returned; hence a second Shutdown right after a first never errors. -/
theorem Shutdown_idempotent :
    Shutdown none = (none, none) ∧
    (∀ m : Manager, (Shutdown (some m)).1 = none) ∧
    (∀ st : Option Manager, (Shutdown (Shutdown st).1).2 = none) := by
  refine ⟨rfl, fun m => rfl, fun st => ?_⟩
  cases st <;> rfl

/-! ## C5: Start with a disabled configuration -/

/-- C5: with `Enabled = false`, Start returns no error, performs no
observable action and leaves the singleton slot (and hence any previously
active manager and its components) exactly as it was. -/
theorem Start_disabled_noop (st : Option Manager) (config : Config) (env : StartEnv)
    (h : config.Enabled = false) :
    Start st config env = (st, none, []) := by
  simp [Start, h]

/-- Witness for C5: a fully populated but disabled configuration, with a
previously active manager installed, is left untouched. -/
theorem Start_disabled_noop_witness :
    Start (some cleanManager) disabledConfig logFailEnv = (some cleanManager, none, []) :=
  Start_disabled_noop (some cleanManager) disabledConfig logFailEnv rfl

/-! ## C6: Start with an enabled configuration and empty endpoint -/

/-- C6: with `Enabled = true` and an empty endpoint, Start returns the
configuration error, performs no observable action (allocates nothing) and
leaves the singleton slot unchanged. -/
theorem Start_no_endpoint_errors (st : Option Manager) (config : Config) (env : StartEnv)
    (h1 : config.Enabled = true) (h2 : config.Endpoint = "") :
    Start st config env = (st, some noEndpointErr, []) := by
  simp [Start, h1, h2]

/-- Witness for C6: an enabled endpoint-less configuration fails with the
configuration error and leaves the installed manager alone. -/
theorem Start_no_endpoint_errors_witness :
    Start (some cleanManager) noEndpointConfig logFailEnv =
      (some cleanManager, some noEndpointErr, []) :=
  Start_no_endpoint_errors (some cleanManager) noEndpointConfig logFailEnv rfl rfl

/-! ## C4: Start with an enabled configuration and endpoint installs -/

/-- C4: for every enabled configuration with a non-empty endpoint, Start
returns no error and installs a new manager as the sole active instance:
the new manager's log hook is present exactly when log export is enabled
and its exporter was built, its metrics bridge exactly when metric export
is enabled and its reader was built (each independent of the other and of
a resource-build failure); any previously active manager is first fully
torn down — its whole teardown trace precedes everything else and its
teardown error is logged, never returned — and the install is the last
action. -/
theorem Start_enabled_installs (st : Option Manager) (config : Config) (env : StartEnv)
    (h1 : config.Enabled = true) (h2 : config.Endpoint ≠ "") :
    ∃ mgr trace, Start st config env = (some mgr, none, trace) ∧
      mgr.logHook.isSome = (config.ExportLogs && !env.logExporterFails) ∧
      mgr.metricsBridge.isSome = (config.ExportMetrics && !env.metricReaderFails) ∧
      mgr.shutdownFuncs = [] ∧
      mgr.config = config ∧
      (env.resourceFails = true → StartEvent.resourceFailLogged ∈ trace) ∧
      (config.ExportLogs = true → env.logExporterFails = true →
        StartEvent.logExporterFailLogged ∈ trace) ∧
      (config.ExportMetrics = true → env.metricReaderFails = true →
        StartEvent.metricReaderFailLogged ∈ trace) ∧
      (∀ prev, st = some prev →
        trace.take ((prev.shutdown).1.length) =
          (prev.shutdown).1.map StartEvent.prevTeardown ∧
        (∀ e, (prev.shutdown).2 = some e → StartEvent.prevShutdownErrLogged e ∈ trace)) ∧
      trace.getLast? = some StartEvent.managerInstalled := by
  rw [Start.eq_def, if_neg (by simp [h1]), if_neg h2]
  refine ⟨_, _, rfl, ?_, ?_, ?_, ?_, ?_, ?_, ?_, ?_, ?_⟩
  · by_cases hL : config.ExportLogs <;> by_cases hLE : env.logExporterFails <;>
      by_cases hM : config.ExportMetrics <;> by_cases hMR : env.metricReaderFails <;>
      simp [hL, hLE, hM, hMR]
  · by_cases hL : config.ExportLogs <;> by_cases hLE : env.logExporterFails <;>
      by_cases hM : config.ExportMetrics <;> by_cases hMR : env.metricReaderFails <;>
      simp [hL, hLE, hM, hMR]
  · by_cases hL : config.ExportLogs <;> by_cases hLE : env.logExporterFails <;>
      by_cases hM : config.ExportMetrics <;> by_cases hMR : env.metricReaderFails <;>
      simp [hL, hLE, hM, hMR]
  · by_cases hL : config.ExportLogs <;> by_cases hLE : env.logExporterFails <;>
      by_cases hM : config.ExportMetrics <;> by_cases hMR : env.metricReaderFails <;>
      simp [hL, hLE, hM, hMR]
  · intro hR
    simp [hR]
  · intro hL hLE
    simp [hL, hLE]
  · intro hM hMR
    simp [hM, hMR]
  · intro prev hpe
    subst hpe
    constructor
    · simp only [List.append_assoc]
      exact List.take_left' (by simp)
    · intro e hE
      simp [hE]
  · cases st <;> simp [List.getLast?_concat]

/-- Witness for C4: starting over an installed manager whose components
fail on teardown, with a resource failure and a log-exporter failure in
the environment, still succeeds: the installed manager has no log hook but
has a metrics bridge, the previous manager's six teardown steps come
first, its teardown error is logged, and the install is the last event. -/
theorem Start_enabled_installs_witness :
    ∃ mgr trace,
      Start (some failingManager) sampleConfig logFailEnv = (some mgr, none, trace) ∧
      mgr.logHook.isSome = (sampleConfig.ExportLogs && !logFailEnv.logExporterFails) ∧
      mgr.metricsBridge.isSome = (sampleConfig.ExportMetrics && !logFailEnv.metricReaderFails) ∧
      mgr.shutdownFuncs = [] ∧
      mgr.config = sampleConfig ∧
      (logFailEnv.resourceFails = true → StartEvent.resourceFailLogged ∈ trace) ∧
      (sampleConfig.ExportLogs = true → logFailEnv.logExporterFails = true →
        StartEvent.logExporterFailLogged ∈ trace) ∧
      (sampleConfig.ExportMetrics = true → logFailEnv.metricReaderFails = true →
        StartEvent.metricReaderFailLogged ∈ trace) ∧
      (∀ prev, some failingManager = some prev →
        trace.take ((prev.shutdown).1.length) =
          (prev.shutdown).1.map StartEvent.prevTeardown ∧
        (∀ e, (prev.shutdown).2 = some e → StartEvent.prevShutdownErrLogged e ∈ trace)) ∧
      trace.getLast? = some StartEvent.managerInstalled :=
  Start_enabled_installs (some failingManager) sampleConfig logFailEnv rfl (by decide)

end DroneOtel
